import Mathlib

/-!
Verification of the geometry engine of the brilliant-mirror-sim repository
(`src/lib/simulation.ts`).

The engine is a set of pure functions over plain 2D coordinates:
reflection of a point across the infinite line through a mirror segment
(`calculateVirtualImagePosition`), reflection of a shape's vertex list
(`calculateVirtualObject`), perpendicular-projection visibility testing
(`isPointProjectedOnSegment`), and single-bounce ray-path construction
(`calculateSingleReflectionPath`).

The TypeScript source delegates its vector/line/segment primitives to the
external `@flatten-js/core` library.  Following the design notes of the
specification (library-backed geometry primitives are standard and are to be
reimplemented directly), we embed those primitives here as exact arithmetic
over `ℚ`: line construction from two distinct points, line-line
intersection, bounded segment-segment intersection, and point-on-segment
containment.  Floating-point epsilon tolerance becomes exact equality.
Behaviour of the library that the source relies on and that we model:

* `new Line(p, q)` throws when `p = q` (the surrounding `try/catch` of the
  source turns this into a `null` result);
* line-line intersection of two perpendicular lines always yields exactly
  one point (so the "no intersection" defensive branches of the source are
  unreachable in exact arithmetic);
* `Segment.intersect` returns one point for a transversal or touching
  intersection, no point for disjoint segments, and two points (the overlap
  endpoints) for collinear overlap of positive length; zero-length segments
  intersect in the single shared point when one contains the other's point.
-/

/-- 2D coordinate record, `PointCoords` of `lib/types.ts`.  Coordinates are
exact rationals in the embedding. -/
@[ext]
structure PointCoords where
  x : ℚ
  y : ℚ
deriving DecidableEq, Repr

/-- Mirror segment element, `MirrorElement` of `lib/types.ts` (the optional
drawing `thickness` plays no geometric role and is omitted).  The source
field `end` is a Lean keyword, rendered `endPt`. -/
structure MirrorElement where
  id : String
  start : PointCoords
  endPt : PointCoords
deriving DecidableEq, Repr

/-- The shape tag `"point" | "triangle"` of `ObjectElement.shape`. -/
inductive ObjectShape where
  | point
  | triangle
deriving DecidableEq, Repr

/-- Physical object element, `ObjectElement` of `lib/types.ts`. -/
structure ObjectElement where
  id : String
  position : PointCoords
  shape : Option ObjectShape
  radius : Option ℚ
deriving DecidableEq, Repr

/-- Virtual (reflected) object, `VirtualObjectElement` of `lib/types.ts`. -/
structure VirtualObjectElement where
  id : String
  shape : ObjectShape
  vertices : List PointCoords
  originalObjectId : String
deriving DecidableEq, Repr

/-- Ray path record, `RayPath` as constructed by
`calculateSingleReflectionPath` in `lib/simulation.ts` (four points,
including the virtual-object point). -/
structure RayPath where
  objectPoint : PointCoords
  mirrorPoint : PointCoords
  viewerPoint : PointCoords
  virtualObjectPoint : PointCoords
deriving DecidableEq, Repr

/-- Coordinate-wise difference `p - q`, the vector from `q` to `p`
(flatten-js `Vector(q, p)`). -/
def psub (p q : PointCoords) : PointCoords :=
  ⟨p.x - q.x, p.y - q.y⟩

/-- 2D cross product (z-component), used for parallelism/collinearity tests
(flatten-js `Vector.cross`). -/
def crossP (p q : PointCoords) : ℚ :=
  p.x * q.y - p.y * q.x

/-- Dot product (flatten-js `Vector.dot`). -/
def dotP (p q : PointCoords) : ℚ :=
  p.x * q.x + p.y * q.y

/-- Affine interpolation `a + t * (b - a)`: the parametric form of the
infinite line through `a` and `b` (for `a ≠ b`), restricted to `t ∈ [0,1]`
the segment from `a` to `b`. -/
def lerp (a b : PointCoords) (t : ℚ) : PointCoords :=
  ⟨a.x + t * (b.x - a.x), a.y + t * (b.y - a.y)⟩

/-- `q` lies on the infinite line through `a` and `b`. -/
def onLine (q a b : PointCoords) : Prop :=
  ∃ t : ℚ, q = lerp a b t

/-- `q` lies on the closed bounded segment from `a` to `b`, endpoints
included (the geometric meaning of flatten-js `Segment.contains`). -/
def onSeg (q a b : PointCoords) : Prop :=
  ∃ t : ℚ, 0 ≤ t ∧ t ≤ 1 ∧ q = lerp a b t

/-- Executable point-on-segment containment test, the embedding of
flatten-js `Segment.contains` / `Point.on(segment)`: collinearity with the
segment direction plus a dot-product bound, with exact equality in place of
the library's epsilon comparisons.  A zero-length segment contains exactly
its single point. -/
def onSegB (q a b : PointCoords) : Bool :=
  if a = b then q = a
  else
    decide (crossP (psub q a) (psub b a) = 0
      ∧ 0 ≤ dotP (psub q a) (psub b a)
      ∧ dotP (psub q a) (psub b a) ≤ dotP (psub b a) (psub b a))

/-- The perpendicular projection of `p` onto the infinite line through
`a` and `b` (for `a ≠ b`): the intersection of that line with the line
through `p` along the normal direction, as computed by the source's
line-line intersection calls. -/
def projPoint (p a b : PointCoords) : PointCoords :=
  lerp a b (dotP (psub p a) (psub b a) / dotP (psub b a) (psub b a))

/-- `calculateVirtualImagePosition` of `lib/simulation.ts`: the mirror image
of `elementPosCoords` across the infinite line through the mirror's
endpoints, or `none` when the mirror is degenerate (flatten-js `new Line`
throws on coincident points; the source catches this and returns `null`).
In exact arithmetic the perpendicular through the point always meets the
mirror line in exactly one point (the projection `M`), and the source
returns `2*M - point`. -/
def calculateVirtualImagePosition (elementPosCoords : PointCoords)
    (mirror : MirrorElement) : Option PointCoords :=
  if mirror.start = mirror.endPt then none
  else
    let m := projPoint elementPosCoords mirror.start mirror.endPt
    some ⟨2 * m.x - elementPosCoords.x, 2 * m.y - elementPosCoords.y⟩

/-- `isPointProjectedOnSegment` of `lib/simulation.ts`: whether the
perpendicular projection of the point onto the infinite line through the
segment's endpoints falls within the bounded segment.  A zero-length
segment yields `true` exactly when the point coincides with the single
degenerate point (the source's `point.equalTo(segmentStart)`).  Otherwise
the source projects the point (in exact arithmetic the perpendicular
always meets the segment line, so the defensive no-intersection branch is
unreachable) and tests `segment.contains(projectionPoint)`. -/
def isPointProjectedOnSegment (pointCoords segmentStartCoords
    segmentEndCoords : PointCoords) : Bool :=
  if segmentStartCoords = segmentEndCoords then
    pointCoords = segmentStartCoords
  else
    onSegB (projPoint pointCoords segmentStartCoords segmentEndCoords)
      segmentStartCoords segmentEndCoords

/-- Result of bounded segment-segment intersection as observed through
flatten-js `Segment.intersect`: no intersection point, exactly one, or an
overlap containing more than one point (the library then returns the two
overlap endpoints). -/
inductive SegInter where
  | empty
  | one (p : PointCoords)
  | many
deriving DecidableEq, Repr

/-- Bounded segment-segment intersection, the embedding of flatten-js
`Segment.intersect` on the segments `[a1,b1]` and `[a2,b2]`.  Zero-length
segments intersect in their point when the other segment contains it.  For
two proper segments: a transversal pair (nonzero cross product of the
directions) meets in at most one point, located by the standard parametric
solution; parallel non-collinear segments are disjoint; collinear segments
overlap in the sub-interval `[lo, hi]` of the first segment's parameter
range, which is empty, a single point, or (for the library, two returned
points) a positive-length overlap. -/
def segmentIntersect (a1 b1 a2 b2 : PointCoords) : SegInter :=
  if a1 = b1 then
    (if onSegB a1 a2 b2 then .one a1 else .empty)
  else if a2 = b2 then
    (if onSegB a2 a1 b1 then .one a2 else .empty)
  else
    let r := psub b1 a1
    let s := psub b2 a2
    let w := psub a2 a1
    let c := crossP r s
    if c ≠ 0 then
      let t := crossP w s / c
      let u := crossP w r / c
      if 0 ≤ t ∧ t ≤ 1 ∧ 0 ≤ u ∧ u ≤ 1 then .one (lerp a1 b1 t) else .empty
    else if crossP w r ≠ 0 then .empty
    else
      let dd := dotP r r
      let t0 := dotP w r / dd
      let t1 := dotP (psub b2 a1) r / dd
      let lo := max 0 (min t0 t1)
      let hi := min 1 (max t0 t1)
      if lo < hi then .many
      else if lo = hi then .one (lerp a1 b1 lo)
      else .empty

/-- `calculateSingleReflectionPath` of `lib/simulation.ts`: reflect the
object across the mirror line to get the virtual object, intersect the
sight segment (viewer to virtual object) with the bounded physical mirror
segment, and require exactly one intersection point (the source's
`intersectionPoints.length !== 1` check); assemble the `RayPath` from the
original object, the reflection point, the viewer and the virtual object. -/
def calculateSingleReflectionPath (objPosCoords viewPosCoords : PointCoords)
    (mirror : MirrorElement) : Option RayPath :=
  match calculateVirtualImagePosition objPosCoords mirror with
  | none => none
  | some virtualObjPosCoords =>
    match segmentIntersect mirror.start mirror.endPt
        viewPosCoords virtualObjPosCoords with
    | .one reflectionPoint =>
      some ⟨objPosCoords, reflectionPoint, viewPosCoords, virtualObjPosCoords⟩
    | _ => none

/-- The resolved shape of an object: the source's
`object.shape || "point"` fallback. -/
def objectShapeResolved (o : ObjectElement) : ObjectShape :=
  o.shape.getD .point

/-- The resolved triangle radius of an object: the source's
`object.radius || 10` fallback.  In JavaScript `0` is falsy, so a present
radius of `0` also falls back to `10`. -/
def objectRadiusResolved (o : ObjectElement) : ℚ :=
  match o.radius with
  | some r => if r = 0 then 10 else r
  | none => 10

/-- The physical vertex list of an object as laid out by
`calculateVirtualObject` in `lib/simulation.ts`: for a triangle, the pointy
right vertex and the two base vertices around the centre; for a point (the
default), the single centre position. -/
def objectVertices (o : ObjectElement) : List PointCoords :=
  match objectShapeResolved o with
  | .triangle =>
    let radius := objectRadiusResolved o
    let origX := o.position.x
    let origY := o.position.y
    [⟨origX + radius, origY⟩,
     ⟨origX - radius / 2, origY - radius⟩,
     ⟨origX - radius / 2, origY + radius⟩]
  | .point => [o.position]

/-- The vertex-reflection loop of `calculateVirtualObject`: reflect each
vertex in order, returning `none` as soon as any reflection fails (the
source's early `return null`). -/
def reflectVertices (vs : List PointCoords) (mirror : MirrorElement) :
    Option (List PointCoords) :=
  match vs with
  | [] => some []
  | v :: rest =>
    match calculateVirtualImagePosition v mirror with
    | none => none
    | some rv =>
      match reflectVertices rest mirror with
      | none => none
      | some rs => some (rv :: rs)

/-- `calculateVirtualObject` of `lib/simulation.ts`: reflect every vertex of
the object's resolved shape; on success assemble the virtual object with the
prefixed id, the resolved shape tag, the reflected vertices in order, and a
reference to the original object's id. -/
def calculateVirtualObject (object : ObjectElement) (mirror : MirrorElement) :
    Option VirtualObjectElement :=
  match reflectVertices (objectVertices object) mirror with
  | none => none
  | some virtualVertices =>
    some ⟨"virtual-" ++ object.id, objectShapeResolved object,
      virtualVertices, object.id⟩

/-! ### Basic facts about the parametric segment representation -/

lemma dir_ne_zero {a b : PointCoords} (h : a ≠ b) :
    b.x - a.x ≠ 0 ∨ b.y - a.y ≠ 0 := by
  by_contra hc
  push_neg at hc
  exact h (PointCoords.ext (by linarith [hc.1]) (by linarith [hc.2]))

lemma dd_pos {a b : PointCoords} (h : a ≠ b) :
    0 < dotP (psub b a) (psub b a) := by
  dsimp [dotP, psub]
  rcases dir_ne_zero h with hd | hd
  · nlinarith [mul_self_pos.mpr hd, mul_self_nonneg (b.y - a.y)]
  · nlinarith [mul_self_pos.mpr hd, mul_self_nonneg (b.x - a.x)]

lemma lerp_self (a : PointCoords) (t : ℚ) : lerp a a t = a := by
  ext <;> (dsimp [lerp]; ring)

lemma onSeg_degenerate {q a : PointCoords} : onSeg q a a ↔ q = a := by
  constructor
  · rintro ⟨t, -, -, rfl⟩
    exact lerp_self a t
  · rintro rfl
    exact ⟨0, le_refl 0, zero_le_one, (lerp_self q 0).symm⟩

lemma lerp_inj {a b : PointCoords} (h : a ≠ b) {t t' : ℚ}
    (he : lerp a b t = lerp a b t') : t = t' := by
  have hx := congrArg PointCoords.x he
  have hy := congrArg PointCoords.y he
  dsimp [lerp] at hx hy
  rcases dir_ne_zero h with hd | hd
  · exact mul_right_cancel₀ hd (by linarith)
  · exact mul_right_cancel₀ hd (by linarith)

lemma onLine_param {q a b : PointCoords} (h : a ≠ b)
    (hc : crossP (psub q a) (psub b a) = 0) :
    q = lerp a b
      (dotP (psub q a) (psub b a) / dotP (psub b a) (psub b a)) := by
  have hdd : dotP (psub b a) (psub b a) ≠ 0 := (dd_pos h).ne.symm
  dsimp [crossP, psub] at hc
  dsimp [dotP, psub] at hdd
  ext
  · dsimp [lerp, dotP, psub]
    field_simp
    linear_combination (b.y - a.y) * hc
  · dsimp [lerp, dotP, psub]
    field_simp
    linear_combination -(b.x - a.x) * hc

lemma onSeg_iff {q a b : PointCoords} : onSegB q a b = true ↔ onSeg q a b := by
  by_cases hab : a = b
  · subst hab
    simp [onSegB, onSeg_degenerate]
  · have hdd := dd_pos hab
    simp only [onSegB, if_neg hab, decide_eq_true_eq]
    constructor
    · rintro ⟨hc, h0, h1⟩
      exact ⟨dotP (psub q a) (psub b a) / dotP (psub b a) (psub b a),
        div_nonneg h0 hdd.le, (div_le_one hdd).mpr h1, onLine_param hab hc⟩
    · rintro ⟨t, h0, h1, rfl⟩
      dsimp [dotP, psub] at hdd
      refine ⟨?_, ?_, ?_⟩
      · dsimp [crossP, psub, lerp]
        ring
      · dsimp [dotP, psub, lerp]
        nlinarith [hdd]
      · dsimp [dotP, psub, lerp]
        nlinarith [hdd, mul_nonneg (by linarith : (0:ℚ) ≤ 1 - t) hdd.le]

/-! ### Transversal (non-parallel) segment intersection -/

lemma nonpar_params {a1 b1 a2 b2 : PointCoords} {t' u' : ℚ}
    (hc : crossP (psub b1 a1) (psub b2 a2) ≠ 0)
    (he : lerp a1 b1 t' = lerp a2 b2 u') :
    t' = crossP (psub a2 a1) (psub b2 a2) / crossP (psub b1 a1) (psub b2 a2) ∧
    u' = crossP (psub a2 a1) (psub b1 a1) / crossP (psub b1 a1) (psub b2 a2) := by
  have hx := congrArg PointCoords.x he
  have hy := congrArg PointCoords.y he
  dsimp [lerp] at hx hy
  dsimp [crossP, psub] at hc ⊢
  constructor
  · field_simp
    linear_combination (b2.y - a2.y) * hx - (b2.x - a2.x) * hy
  · field_simp
    linear_combination (b1.y - a1.y) * hx - (b1.x - a1.x) * hy

lemma nonpar_sol {a1 b1 a2 b2 : PointCoords}
    (hc : crossP (psub b1 a1) (psub b2 a2) ≠ 0) :
    lerp a1 b1
        (crossP (psub a2 a1) (psub b2 a2) / crossP (psub b1 a1) (psub b2 a2)) =
      lerp a2 b2
        (crossP (psub a2 a1) (psub b1 a1) / crossP (psub b1 a1) (psub b2 a2)) := by
  dsimp [crossP, psub] at hc
  ext
  · dsimp [lerp, crossP, psub]
    field_simp
    ring
  · dsimp [lerp, crossP, psub]
    field_simp
    ring

lemma par_no_common {a1 b1 a2 b2 : PointCoords} {t' u' : ℚ}
    (hc : crossP (psub b1 a1) (psub b2 a2) = 0)
    (he : lerp a1 b1 t' = lerp a2 b2 u') :
    crossP (psub a2 a1) (psub b1 a1) = 0 := by
  have hx := congrArg PointCoords.x he
  have hy := congrArg PointCoords.y he
  dsimp [lerp] at hx hy
  dsimp [crossP, psub] at hc ⊢
  linear_combination (a1.y - b1.y) * hx + (b1.x - a1.x) * hy + u' * hc

/-! ### Collinear segment overlap -/

lemma cross_b2_a1 {a1 b1 a2 b2 : PointCoords}
    (hc : crossP (psub b1 a1) (psub b2 a2) = 0)
    (hw : crossP (psub a2 a1) (psub b1 a1) = 0) :
    crossP (psub b2 a1) (psub b1 a1) = 0 := by
  dsimp [crossP, psub] at *
  linear_combination hw - hc

lemma lerp_compose {a1 b1 a2 b2 : PointCoords} {t0 t1 : ℚ}
    (ha2 : a2 = lerp a1 b1 t0) (hb2 : b2 = lerp a1 b1 t1) (u : ℚ) :
    lerp a2 b2 u = lerp a1 b1 (t0 + u * (t1 - t0)) := by
  subst ha2 hb2
  ext <;> (dsimp [lerp]; ring)

lemma param_interval {t0 t1 τ : ℚ} (hne : t0 ≠ t1) :
    (∃ u, 0 ≤ u ∧ u ≤ 1 ∧ τ = t0 + u * (t1 - t0)) ↔
      (min t0 t1 ≤ τ ∧ τ ≤ max t0 t1) := by
  rcases lt_or_gt_of_ne hne with hlt | hlt
  · rw [min_eq_left hlt.le, max_eq_right hlt.le]
    constructor
    · rintro ⟨u, h0, h1, rfl⟩
      constructor <;> nlinarith
    · rintro ⟨hl, hr⟩
      have h10 : t1 - t0 ≠ 0 := by linarith
      refine ⟨(τ - t0) / (t1 - t0), div_nonneg (by linarith) (by linarith),
        ?_, ?_⟩
      · rw [div_le_one (by linarith)]
        linarith
      · field_simp
  · rw [min_eq_right hlt.le, max_eq_left hlt.le]
    constructor
    · rintro ⟨u, h0, h1, rfl⟩
      constructor <;> nlinarith
    · rintro ⟨hl, hr⟩
      have h01 : t0 - t1 ≠ 0 := by linarith
      refine ⟨(t0 - τ) / (t0 - t1), div_nonneg (by linarith) (by linarith),
        ?_, ?_⟩
      · rw [div_le_one (by linarith)]
        linarith
      · field_simp
        ring

lemma onSeg_collinear_iff {a1 b1 a2 b2 q : PointCoords} {t0 t1 : ℚ}
    (ha2 : a2 = lerp a1 b1 t0) (hb2 : b2 = lerp a1 b1 t1) (hne : t0 ≠ t1) :
    onSeg q a2 b2 ↔
      ∃ τ, min t0 t1 ≤ τ ∧ τ ≤ max t0 t1 ∧ q = lerp a1 b1 τ := by
  constructor
  · rintro ⟨u, h0, h1, rfl⟩
    obtain ⟨hl, hr⟩ := (param_interval hne).mp ⟨u, h0, h1, rfl⟩
    exact ⟨t0 + u * (t1 - t0), hl, hr, lerp_compose ha2 hb2 u⟩
  · rintro ⟨τ, hl, hr, rfl⟩
    obtain ⟨u, h0, h1, hτ⟩ := (param_interval hne).mpr ⟨hl, hr⟩
    exact ⟨u, h0, h1, by rw [lerp_compose ha2 hb2 u, ← hτ]⟩

lemma onSeg_left (a b : PointCoords) : onSeg a a b :=
  ⟨0, le_refl 0, zero_le_one, by ext <;> (dsimp [lerp]; ring)⟩

lemma common_collinear_iff {a1 b1 a2 b2 q : PointCoords} {t0 t1 : ℚ}
    (h1 : a1 ≠ b1) (ha2 : a2 = lerp a1 b1 t0) (hb2 : b2 = lerp a1 b1 t1)
    (hne : t0 ≠ t1) :
    (onSeg q a1 b1 ∧ onSeg q a2 b2) ↔
      ∃ τ, max 0 (min t0 t1) ≤ τ ∧ τ ≤ min 1 (max t0 t1) ∧
        q = lerp a1 b1 τ := by
  rw [onSeg_collinear_iff ha2 hb2 hne]
  constructor
  · rintro ⟨⟨τ, h0, hτ1, rfl⟩, ⟨τ', hmin, hmax, he⟩⟩
    obtain rfl : τ = τ' := lerp_inj h1 he
    exact ⟨τ, max_le h0 hmin, le_min hτ1 hmax, rfl⟩
  · rintro ⟨τ, hlo, hhi, rfl⟩
    rw [max_le_iff] at hlo
    rw [le_min_iff] at hhi
    exact ⟨⟨τ, hlo.1, hhi.1, rfl⟩, ⟨τ, hlo.2, hhi.2, rfl⟩⟩

/-- Soundness and completeness of the embedded segment-segment
intersection with respect to bounded-segment membership: a `one p` result
is the unique common point of the two segments, an `empty` result means
the segments share no point, and a `many` result exhibits two distinct
common points. -/
lemma segInter_spec (a1 b1 a2 b2 : PointCoords) :
    (∀ p, segmentIntersect a1 b1 a2 b2 = .one p →
      (onSeg p a1 b1 ∧ onSeg p a2 b2) ∧
        ∀ q, onSeg q a1 b1 → onSeg q a2 b2 → q = p) ∧
    (segmentIntersect a1 b1 a2 b2 = .empty →
      ∀ q, ¬(onSeg q a1 b1 ∧ onSeg q a2 b2)) ∧
    (segmentIntersect a1 b1 a2 b2 = .many →
      ∃ q q', q ≠ q' ∧ (onSeg q a1 b1 ∧ onSeg q a2 b2) ∧
        (onSeg q' a1 b1 ∧ onSeg q' a2 b2)) := by
  simp only [segmentIntersect]
  split_ifs with h1 h2 h3 h4 h5 h6 h7 h8 h9
  -- degenerate first segment, its point on the second segment
  · refine ⟨?_, fun h => h.elim, fun h => h.elim⟩
    intro p hp
    injection hp with hp
    subst hp
    subst h1
    refine ⟨⟨onSeg_left a1 a1, onSeg_iff.mp h2⟩, fun q hq1 _ => ?_⟩
    exact onSeg_degenerate.mp hq1
  -- degenerate first segment, its point off the second segment
  · refine ⟨fun p hp => hp.elim, fun _ q hq => ?_, fun h => h.elim⟩
    obtain ⟨hq1, hq2⟩ := hq
    subst h1
    rw [onSeg_degenerate] at hq1
    subst hq1
    exact h2 (onSeg_iff.mpr hq2)
  -- degenerate second segment, its point on the first segment
  · refine ⟨?_, fun h => h.elim, fun h => h.elim⟩
    intro p hp
    injection hp with hp
    subst hp
    subst h3
    refine ⟨⟨onSeg_iff.mp h4, onSeg_left a2 a2⟩, fun q _ hq2 => ?_⟩
    exact onSeg_degenerate.mp hq2
  -- degenerate second segment, its point off the first segment
  · refine ⟨fun p hp => hp.elim, fun _ q hq => ?_, fun h => h.elim⟩
    obtain ⟨hq1, hq2⟩ := hq
    subst h3
    rw [onSeg_degenerate] at hq2
    subst hq2
    exact h4 (onSeg_iff.mpr hq1)
  -- transversal pair, parameters in range: the unique crossing point
  · refine ⟨?_, fun h => h.elim, fun h => h.elim⟩
    intro p hp
    injection hp with hp
    subst hp
    obtain ⟨ht0, ht1, hu0, hu1⟩ := h6
    refine ⟨⟨⟨_, ht0, ht1, rfl⟩, ⟨_, hu0, hu1, nonpar_sol h5⟩⟩, ?_⟩
    rintro q ⟨t', ht'0, ht'1, rfl⟩ ⟨u', -, -, he⟩
    rw [(nonpar_params h5 he).1]
  -- transversal pair, crossing outside a segment: no common point
  · refine ⟨fun p hp => hp.elim, fun _ q hq => ?_, fun h => h.elim⟩
    obtain ⟨⟨t', ht'0, ht'1, rfl⟩, ⟨u', hu'0, hu'1, he⟩⟩ := hq
    obtain ⟨hteq, hueq⟩ := nonpar_params h5 he
    exact h6 ⟨hteq ▸ ht'0, hteq ▸ ht'1, hueq ▸ hu'0, hueq ▸ hu'1⟩
  -- parallel, non-collinear: no common point
  · refine ⟨fun p hp => hp.elim, fun _ q hq => ?_, fun h => h.elim⟩
    obtain ⟨⟨t', -, -, rfl⟩, ⟨u', -, -, he⟩⟩ := hq
    exact h7 (par_no_common (not_not.mp h5) he)
  -- collinear, overlap of positive parameter length: many common points
  · refine ⟨fun p hp => hp.elim, fun h => h.elim, fun _ => ?_⟩
    have hw0 := not_not.mp h7
    have ha2 := onLine_param h1 hw0
    have hb2 := onLine_param h1 (cross_b2_a1 (not_not.mp h5) hw0)
    have hne : dotP (psub a2 a1) (psub b1 a1) / dotP (psub b1 a1) (psub b1 a1) ≠
        dotP (psub b2 a1) (psub b1 a1) / dotP (psub b1 a1) (psub b1 a1) := by
      intro h
      exact h3 (by rw [ha2, hb2, h])
    refine ⟨_, _, ?_,
      (common_collinear_iff h1 ha2 hb2 hne).mpr ⟨_, le_refl _, h8.le, rfl⟩,
      (common_collinear_iff h1 ha2 hb2 hne).mpr ⟨_, h8.le, le_refl _, rfl⟩⟩
    intro h
    exact absurd (lerp_inj h1 h) (ne_of_lt h8)
  -- collinear, overlap of a single parameter: the unique common point
  · refine ⟨?_, fun h => h.elim, fun h => h.elim⟩
    intro p hp
    injection hp with hp
    subst hp
    have hw0 := not_not.mp h7
    have ha2 := onLine_param h1 hw0
    have hb2 := onLine_param h1 (cross_b2_a1 (not_not.mp h5) hw0)
    have hne : dotP (psub a2 a1) (psub b1 a1) / dotP (psub b1 a1) (psub b1 a1) ≠
        dotP (psub b2 a1) (psub b1 a1) / dotP (psub b1 a1) (psub b1 a1) := by
      intro h
      exact h3 (by rw [ha2, hb2, h])
    constructor
    · exact (common_collinear_iff h1 ha2 hb2 hne).mpr ⟨_, le_refl _, h9.le, rfl⟩
    · intro q hq1 hq2
      obtain ⟨τ, hlo, hhi, rfl⟩ :=
        (common_collinear_iff h1 ha2 hb2 hne).mp ⟨hq1, hq2⟩
      rw [le_antisymm (h9 ▸ hhi) hlo]
  -- collinear, disjoint parameter ranges: no common point
  · refine ⟨fun p hp => hp.elim, fun _ q hq => ?_, fun h => h.elim⟩
    have hw0 := not_not.mp h7
    have ha2 := onLine_param h1 hw0
    have hb2 := onLine_param h1 (cross_b2_a1 (not_not.mp h5) hw0)
    have hne : dotP (psub a2 a1) (psub b1 a1) / dotP (psub b1 a1) (psub b1 a1) ≠
        dotP (psub b2 a1) (psub b1 a1) / dotP (psub b1 a1) (psub b1 a1) := by
      intro h
      exact h3 (by rw [ha2, hb2, h])
    obtain ⟨τ, hlo, hhi, -⟩ :=
      (common_collinear_iff h1 ha2 hb2 hne).mp hq
    exact h9 (le_antisymm (not_lt.mp h8) (le_trans hlo hhi)).symm

/-! ### Reflection lemmas -/

lemma calcVIP_eq {p : PointCoords} {m : MirrorElement}
    (h : m.start ≠ m.endPt) :
    calculateVirtualImagePosition p m =
      some ⟨2 * (projPoint p m.start m.endPt).x - p.x,
            2 * (projPoint p m.start m.endPt).y - p.y⟩ := by
  simp only [calculateVirtualImagePosition, if_neg h]

/-- Claim C4: reflecting a point twice across a mirror with distinct
endpoints returns the original point (exactly, in the rational embedding of
the floating-point computation). -/
theorem claim_C4_involution (p : PointCoords) (m : MirrorElement)
    (h : m.start ≠ m.endPt) :
    (calculateVirtualImagePosition p m).bind
        (fun q => calculateVirtualImagePosition q m) = some p := by
  have hdd : dotP (psub m.endPt m.start) (psub m.endPt m.start) ≠ 0 :=
    (dd_pos h).ne.symm
  rw [calcVIP_eq h, Option.some_bind, calcVIP_eq h, Option.some.injEq]
  dsimp [dotP, psub] at hdd
  ext
  · dsimp [projPoint, lerp, dotP, psub]
    field_simp
    ring
  · dsimp [projPoint, lerp, dotP, psub]
    field_simp
    ring

/-- Witness for C4 at the point (1,2) and the mirror from (0,0) to (3,0). -/
theorem claim_C4_witness :
    (⟨"m", ⟨0, 0⟩, ⟨3, 0⟩⟩ : MirrorElement).start ≠
        (⟨"m", ⟨0, 0⟩, ⟨3, 0⟩⟩ : MirrorElement).endPt ∧
      (calculateVirtualImagePosition ⟨1, 2⟩ ⟨"m", ⟨0, 0⟩, ⟨3, 0⟩⟩).bind
          (fun q => calculateVirtualImagePosition q ⟨"m", ⟨0, 0⟩, ⟨3, 0⟩⟩) =
        some ⟨1, 2⟩ :=
  ⟨by decide, claim_C4_involution ⟨1, 2⟩ ⟨"m", ⟨0, 0⟩, ⟨3, 0⟩⟩ (by decide)⟩

/-- Claim C5: a point lying exactly on the infinite line through the
endpoints of a non-degenerate mirror is its own virtual image. -/
theorem claim_C5_fixed_points (p : PointCoords) (m : MirrorElement)
    (h : m.start ≠ m.endPt) (hp : onLine p m.start m.endPt) :
    calculateVirtualImagePosition p m = some p := by
  have hdd : dotP (psub m.endPt m.start) (psub m.endPt m.start) ≠ 0 :=
    (dd_pos h).ne.symm
  obtain ⟨t, rfl⟩ := hp
  rw [calcVIP_eq h, Option.some.injEq]
  dsimp [dotP, psub] at hdd
  ext
  · dsimp [projPoint, lerp, dotP, psub]
    field_simp
    ring
  · dsimp [projPoint, lerp, dotP, psub]
    field_simp
    ring

/-- Witness for C5 at the on-line point (1,1) of the mirror from (0,0) to
(2,2). -/
theorem claim_C5_witness :
    ((⟨"m", ⟨0, 0⟩, ⟨2, 2⟩⟩ : MirrorElement).start ≠
        (⟨"m", ⟨0, 0⟩, ⟨2, 2⟩⟩ : MirrorElement).endPt ∧
      onLine ⟨1, 1⟩ ⟨0, 0⟩ ⟨2, 2⟩) ∧
      calculateVirtualImagePosition ⟨1, 1⟩ ⟨"m", ⟨0, 0⟩, ⟨2, 2⟩⟩ =
        some ⟨1, 1⟩ := by
  have hline : onLine (⟨1, 1⟩ : PointCoords) ⟨0, 0⟩ ⟨2, 2⟩ :=
    ⟨1/2, by ext <;> (dsimp [lerp]; norm_num)⟩
  exact ⟨⟨by decide, hline⟩,
    claim_C5_fixed_points ⟨1, 1⟩ ⟨"m", ⟨0, 0⟩, ⟨2, 2⟩⟩ (by decide) hline⟩

/-- Claim C7: for a zero-length segment the visibility test succeeds exactly
when the queried point coincides with the single degenerate point. -/
theorem claim_C7_degenerate_segment (p s : PointCoords) :
    isPointProjectedOnSegment p s s = true ↔ p = s := by
  simp [isPointProjectedOnSegment]

/-- Witness for C7: instantiated at (3,4) against the zero-length segment at
(3,4), and at (5,6) against the same segment. -/
theorem claim_C7_witness :
    isPointProjectedOnSegment ⟨3, 4⟩ ⟨3, 4⟩ ⟨3, 4⟩ = true ∧
      ¬ isPointProjectedOnSegment ⟨5, 6⟩ ⟨3, 4⟩ ⟨3, 4⟩ = true :=
  ⟨(claim_C7_degenerate_segment ⟨3, 4⟩ ⟨3, 4⟩).mpr rfl,
    fun h => by cases (claim_C7_degenerate_segment ⟨5, 6⟩ ⟨3, 4⟩).mp h⟩

lemma objectVertices_ne_nil (o : ObjectElement) : objectVertices o ≠ [] := by
  unfold objectVertices
  cases objectShapeResolved o <;> simp

/-- Claim C8: a degenerate mirror (coincident endpoints) makes the point
reflection fail, and this failure propagates to shape reflection and to
ray-path construction for every object and viewer. -/
theorem claim_C8_degenerate_mirror (p : PointCoords) (m : MirrorElement)
    (h : m.start = m.endPt) :
    calculateVirtualImagePosition p m = none ∧
      (∀ o : ObjectElement, calculateVirtualObject o m = none) ∧
      (∀ obj view : PointCoords,
        calculateSingleReflectionPath obj view m = none) := by
  refine ⟨by simp [calculateVirtualImagePosition, h], ?_, ?_⟩
  · intro o
    unfold calculateVirtualObject
    rcases hvs : objectVertices o with - | ⟨v, rest⟩
    · exact absurd hvs (objectVertices_ne_nil o)
    · simp [reflectVertices, calculateVirtualImagePosition, h]
  · intro obj view
    simp [calculateSingleReflectionPath, calculateVirtualImagePosition, h]

/-- Witness for C8 at the degenerate mirror collapsed to (3,4). -/
theorem claim_C8_witness :
    calculateVirtualImagePosition ⟨1, 2⟩ ⟨"m", ⟨3, 4⟩, ⟨3, 4⟩⟩ = none ∧
      (∀ o : ObjectElement,
        calculateVirtualObject o ⟨"m", ⟨3, 4⟩, ⟨3, 4⟩⟩ = none) ∧
      (∀ obj view : PointCoords,
        calculateSingleReflectionPath obj view ⟨"m", ⟨3, 4⟩, ⟨3, 4⟩⟩ =
          none) :=
  claim_C8_degenerate_mirror ⟨1, 2⟩ ⟨"m", ⟨3, 4⟩, ⟨3, 4⟩⟩ (by decide)

/-- Claim C1: the basic ray-trace scenario.  Object (100,100), viewer
(100,300), mirror from (200,50) to (200,350): the virtual object is at
(300,100) and the reflection point at (200,200), giving the full RayPath
{object (100,100), mirror (200,200), viewer (100,300), virtual object
(300,100)}. -/
theorem claim_C1_ray_trace_basic :
    calculateSingleReflectionPath ⟨100, 100⟩ ⟨100, 300⟩
        ⟨"mirror", ⟨200, 50⟩, ⟨200, 350⟩⟩ =
      some ⟨⟨100, 100⟩, ⟨200, 200⟩, ⟨100, 300⟩, ⟨300, 100⟩⟩ := by
  norm_num [calculateSingleReflectionPath, calculateVirtualImagePosition,
    projPoint, lerp, psub, dotP, crossP, segmentIntersect, onSegB]

/-- Claim C2: whenever a RayPath is produced, its mirror point lies on the
bounded physical mirror segment and on the sight segment from the path's
viewer point to its virtual-object point. -/
theorem claim_C2_raypath_invariant (obj view : PointCoords)
    (m : MirrorElement) (path : RayPath)
    (h : calculateSingleReflectionPath obj view m = some path) :
    onSeg path.mirrorPoint m.start m.endPt ∧
      onSeg path.mirrorPoint path.viewerPoint path.virtualObjectPoint := by
  unfold calculateSingleReflectionPath at h
  cases hv : calculateVirtualImagePosition obj m with
  | none =>
    rw [hv] at h
    cases h
  | some vObj =>
    rw [hv] at h
    dsimp only at h
    cases hs : segmentIntersect m.start m.endPt view vObj with
    | empty =>
      rw [hs] at h
      cases h
    | many =>
      rw [hs] at h
      cases h
    | one rp =>
      rw [hs] at h
      dsimp only at h
      injection h with h
      subst h
      obtain ⟨⟨hm, hsight⟩, -⟩ :=
        (segInter_spec m.start m.endPt view vObj).1 rp hs
      exact ⟨hm, hsight⟩

/-- Witness for C2 at the basic ray-trace scenario. -/
theorem claim_C2_witness :
    calculateSingleReflectionPath ⟨100, 100⟩ ⟨100, 300⟩
        ⟨"mirror", ⟨200, 50⟩, ⟨200, 350⟩⟩ =
      some ⟨⟨100, 100⟩, ⟨200, 200⟩, ⟨100, 300⟩, ⟨300, 100⟩⟩ ∧
    (onSeg ⟨200, 200⟩ ⟨200, 50⟩ ⟨200, 350⟩ ∧
      onSeg ⟨200, 200⟩ ⟨100, 300⟩ ⟨300, 100⟩) := by
  have h : calculateSingleReflectionPath ⟨100, 100⟩ ⟨100, 300⟩
      ⟨"mirror", ⟨200, 50⟩, ⟨200, 350⟩⟩ =
      some ⟨⟨100, 100⟩, ⟨200, 200⟩, ⟨100, 300⟩, ⟨300, 100⟩⟩ := by
    norm_num [calculateSingleReflectionPath, calculateVirtualImagePosition,
      projPoint, lerp, psub, dotP, crossP, segmentIntersect, onSegB]
  exact ⟨h, claim_C2_raypath_invariant _ _ _ _ h⟩

/-- Claim C3: given that the virtual image exists, the path construction
fails exactly when the sight segment from the viewer to the virtual image
meets the bounded mirror segment in zero points or in more than one point;
in particular it fails for the shortened mirror (200,0)-(200,50) with
object (100,100) and viewer (100,300). -/
theorem claim_C3_failure_iff :
    (∀ (obj view : PointCoords) (m : MirrorElement) (vObj : PointCoords),
      calculateVirtualImagePosition obj m = some vObj →
      (calculateSingleReflectionPath obj view m = none ↔
        ¬ ∃! q : PointCoords, onSeg q view vObj ∧ onSeg q m.start m.endPt)) ∧
    calculateSingleReflectionPath ⟨100, 100⟩ ⟨100, 300⟩
        ⟨"mirror", ⟨200, 0⟩, ⟨200, 50⟩⟩ = none := by
  constructor
  · intro obj view m vObj hv
    unfold calculateSingleReflectionPath
    rw [hv]
    dsimp only
    obtain ⟨hone, hempty, hmany⟩ := segInter_spec m.start m.endPt view vObj
    cases hs : segmentIntersect m.start m.endPt view vObj with
    | empty =>
      refine iff_of_true rfl ?_
      rintro ⟨q, ⟨hq1, hq2⟩, -⟩
      exact hempty hs q ⟨hq2, hq1⟩
    | many =>
      refine iff_of_true rfl ?_
      rintro ⟨q, -, huniq⟩
      obtain ⟨q1, q2, hne, hc1, hc2⟩ := hmany hs
      exact hne ((huniq q1 ⟨hc1.2, hc1.1⟩).trans (huniq q2 ⟨hc2.2, hc2.1⟩).symm)
    | one rp =>
      obtain ⟨⟨hm, hsight⟩, huniq⟩ := hone rp hs
      refine iff_of_false ?_ ?_
      · intro hcontra
        cases hcontra
      · intro hno
        exact hno ⟨rp, ⟨hsight, hm⟩, fun y hy => huniq y hy.2 hy.1⟩
  · norm_num [calculateSingleReflectionPath, calculateVirtualImagePosition,
      projPoint, lerp, psub, dotP, crossP, segmentIntersect, onSegB]

/-- Witness for C3, instantiating the equivalence at the basic scenario
(virtual object (300,100)) where a unique intersection exists. -/
theorem claim_C3_witness :
    calculateVirtualImagePosition ⟨100, 100⟩
        ⟨"mirror", ⟨200, 50⟩, ⟨200, 350⟩⟩ = some ⟨300, 100⟩ ∧
      (calculateSingleReflectionPath ⟨100, 100⟩ ⟨100, 300⟩
          ⟨"mirror", ⟨200, 50⟩, ⟨200, 350⟩⟩ = none ↔
        ¬ ∃! q : PointCoords,
          onSeg q ⟨100, 300⟩ ⟨300, 100⟩ ∧ onSeg q ⟨200, 50⟩ ⟨200, 350⟩) := by
  have hv : calculateVirtualImagePosition ⟨100, 100⟩
      ⟨"mirror", ⟨200, 50⟩, ⟨200, 350⟩⟩ = some ⟨300, 100⟩ := by
    norm_num [calculateVirtualImagePosition, projPoint, lerp, psub, dotP]
  exact ⟨hv, claim_C3_failure_iff.1 ⟨100, 100⟩ ⟨100, 300⟩
    ⟨"mirror", ⟨200, 50⟩, ⟨200, 350⟩⟩ ⟨300, 100⟩ hv⟩

/-! ### Perpendicular projection lemmas for the visibility test -/

lemma proj_perp (p a b : PointCoords) (h : a ≠ b) :
    dotP (psub p (projPoint p a b)) (psub b a) = 0 := by
  have hdd : dotP (psub b a) (psub b a) ≠ 0 := (dd_pos h).ne.symm
  dsimp [dotP, psub] at hdd
  dsimp [projPoint, lerp, dotP, psub]
  field_simp
  ring

lemma perp_unique {p a b : PointCoords} {t : ℚ} (h : a ≠ b)
    (hperp : dotP (psub p (lerp a b t)) (psub b a) = 0) :
    lerp a b t = projPoint p a b := by
  have hdd : dotP (psub b a) (psub b a) ≠ 0 := (dd_pos h).ne.symm
  dsimp [dotP, psub] at hdd
  dsimp [lerp, dotP, psub] at hperp
  have ht : t = dotP (psub p a) (psub b a) / dotP (psub b a) (psub b a) := by
    dsimp [dotP, psub]
    rw [eq_div_iff hdd]
    linarith [hperp]
  rw [projPoint, ← ht]

/-- The specification's reading of the visibility test for a proper
segment: some point of the infinite line through `a` and `b` is a
perpendicular foot of `p` (the connecting vector is orthogonal to the
segment direction) and lies within the closed bounded segment. -/
def specProjectionVisible (p a b : PointCoords) : Prop :=
  ∃ q, onLine q a b ∧ dotP (psub p q) (psub b a) = 0 ∧ onSeg q a b

/-- Claim C6: for a proper segment the visibility test returns true exactly
when the perpendicular projection of the point onto the segment's infinite
line lies within the closed bounded segment; in particular, for the segment
(0,0)-(0,10) it accepts the point (5,5) and rejects the point (5,15). -/
theorem claim_C6_projection_visibility :
    (∀ p a b : PointCoords, a ≠ b →
      (isPointProjectedOnSegment p a b = true ↔ specProjectionVisible p a b)) ∧
    isPointProjectedOnSegment ⟨5, 5⟩ ⟨0, 0⟩ ⟨0, 10⟩ = true ∧
    isPointProjectedOnSegment ⟨5, 15⟩ ⟨0, 0⟩ ⟨0, 10⟩ = false := by
  refine ⟨?_, ?_, ?_⟩
  · intro p a b h
    rw [isPointProjectedOnSegment, if_neg h]
    constructor
    · intro hb
      exact ⟨projPoint p a b, ⟨_, rfl⟩, proj_perp p a b h, onSeg_iff.mp hb⟩
    · rintro ⟨q, ⟨t, rfl⟩, hperp, hseg⟩
      rw [perp_unique h hperp] at hseg
      exact onSeg_iff.mpr hseg
  · norm_num [isPointProjectedOnSegment, projPoint, lerp, psub, dotP,
      crossP, onSegB]
  · norm_num [isPointProjectedOnSegment, projPoint, lerp, psub, dotP,
      crossP, onSegB]

/-- Witness for C6, instantiating the equivalence at the boundary example
(5,5) against the segment (0,0)-(0,10). -/
theorem claim_C6_witness :
    (⟨0, 0⟩ : PointCoords) ≠ ⟨0, 10⟩ ∧
      (isPointProjectedOnSegment ⟨5, 5⟩ ⟨0, 0⟩ ⟨0, 10⟩ = true ↔
        specProjectionVisible ⟨5, 5⟩ ⟨0, 0⟩ ⟨0, 10⟩) :=
  ⟨by decide, claim_C6_projection_visibility.1 ⟨5, 5⟩ ⟨0, 0⟩ ⟨0, 10⟩
    (by decide)⟩

/-! ### Shape reflection lemmas -/

lemma reflectVertices_forall {vs rs : List PointCoords} {m : MirrorElement}
    (h : reflectVertices vs m = some rs) :
    List.Forall₂ (fun v rv => calculateVirtualImagePosition v m = some rv)
      vs rs := by
  induction vs generalizing rs with
  | nil =>
    unfold reflectVertices at h
    injection h with h
    subst h
    exact List.Forall₂.nil
  | cons v rest ih =>
    unfold reflectVertices at h
    cases hv : calculateVirtualImagePosition v m with
    | none =>
      rw [hv] at h
      cases h
    | some rv =>
      rw [hv] at h
      dsimp only at h
      cases hrest : reflectVertices rest m with
      | none =>
        rw [hrest] at h
        cases h
      | some rs' =>
        rw [hrest] at h
        dsimp only at h
        injection h with h
        subst h
        exact List.Forall₂.cons hv (ih hrest)

lemma reflectVertices_none {vs : List PointCoords} {m : MirrorElement}
    {v : PointCoords} (hv : v ∈ vs)
    (h : calculateVirtualImagePosition v m = none) :
    reflectVertices vs m = none := by
  induction vs with
  | nil => cases hv
  | cons w rest ih =>
    unfold reflectVertices
    rcases List.mem_cons.mp hv with rfl | hv'
    · rw [h]
    · cases hw : calculateVirtualImagePosition w m with
      | none => rfl
      | some rw' =>
        dsimp only
        rw [ih hv']

/-- Claim C9: shape reflection is all-or-nothing.  If reflecting any vertex
of the object's resolved shape fails, the whole call fails; and whenever a
virtual object is returned, its vertex list consists of the reflections of
all the object's vertices, in the original order. -/
theorem claim_C9_all_or_nothing (o : ObjectElement) (m : MirrorElement) :
    ((∃ v ∈ objectVertices o, calculateVirtualImagePosition v m = none) →
      calculateVirtualObject o m = none) ∧
    (∀ vo, calculateVirtualObject o m = some vo →
      List.Forall₂ (fun v rv => calculateVirtualImagePosition v m = some rv)
        (objectVertices o) vo.vertices) := by
  constructor
  · rintro ⟨v, hv, hnone⟩
    unfold calculateVirtualObject
    rw [reflectVertices_none hv hnone]
  · intro vo h
    unfold calculateVirtualObject at h
    cases hrv : reflectVertices (objectVertices o) m with
    | none =>
      rw [hrv] at h
      cases h
    | some vs =>
      rw [hrv] at h
      dsimp only at h
      injection h with h
      subst h
      exact reflectVertices_forall hrv

/-- Witness for C9: a point object at (1,2) against the degenerate mirror
collapsed to (3,4); every vertex reflection fails and the whole call
fails. -/
theorem claim_C9_witness :
    (∃ v ∈ objectVertices ⟨"o", ⟨1, 2⟩, none, none⟩,
      calculateVirtualImagePosition v ⟨"m", ⟨3, 4⟩, ⟨3, 4⟩⟩ = none) ∧
    calculateVirtualObject ⟨"o", ⟨1, 2⟩, none, none⟩
      ⟨"m", ⟨3, 4⟩, ⟨3, 4⟩⟩ = none := by
  have hex : ∃ v ∈ objectVertices ⟨"o", ⟨1, 2⟩, none, none⟩,
      calculateVirtualImagePosition v ⟨"m", ⟨3, 4⟩, ⟨3, 4⟩⟩ = none := by
    refine ⟨⟨1, 2⟩, ?_, ?_⟩
    · simp [objectVertices, objectShapeResolved]
    · simp [calculateVirtualImagePosition]
  exact ⟨hex,
    (claim_C9_all_or_nothing ⟨"o", ⟨1, 2⟩, none, none⟩
      ⟨"m", ⟨3, 4⟩, ⟨3, 4⟩⟩).1 hex⟩

/-- Counterexample to C10 as stated: for the triangle object at (0,0) with
an explicit radius of 0, the claim predicts vertices that are the
reflections, in order, of (x+r, y), (x-r/2, y-r), (x-r/2, y+r) with
r = object.radius = 0, i.e. three reflections of the centre (0,0).  The
source's `object.radius || 10` treats the present-but-zero radius as
falsy and uses 10 instead, so the returned vertices differ. -/
theorem claim_C10_counterexample :
    ¬ ((calculateVirtualObject ⟨"o", ⟨0, 0⟩, some .triangle, some 0⟩
          ⟨"m", ⟨0, -1⟩, ⟨0, 1⟩⟩).map VirtualObjectElement.vertices =
        reflectVertices
          [⟨0 + 0, 0⟩, ⟨0 - 0 / 2, 0 - 0⟩, ⟨0 - 0 / 2, 0 + 0⟩]
          ⟨"m", ⟨0, -1⟩, ⟨0, 1⟩⟩) := by
  norm_num [calculateVirtualObject, reflectVertices, objectVertices,
    objectShapeResolved, objectRadiusResolved, calculateVirtualImagePosition,
    projPoint, lerp, psub, dotP]

/-- Claim C10 (amended): for a non-degenerate mirror, option resolution in
`calculateVirtualObject` is: an absent shape resolves to "point", yielding
exactly one vertex, the reflection of the object's position; shape
"triangle" yields exactly three vertices, the reflections in order of
(x+r, y), (x-r/2, y-r), (x-r/2, y+r), where r is the resolved radius —
the object's radius when present and nonzero, and 10 when the radius is
absent *or equals 0* (the JavaScript `||` fallback treats 0 as falsy).
The result carries the resolved shape and the original object's id. -/
theorem claim_C10_defaults (o : ObjectElement) (m : MirrorElement)
    (h : m.start ≠ m.endPt) :
    (o.shape = none →
      ∃ rp, calculateVirtualImagePosition o.position m = some rp ∧
        calculateVirtualObject o m =
          some ⟨"virtual-" ++ o.id, .point, [rp], o.id⟩) ∧
    (o.shape = some .triangle →
      ∃ v1 v2 v3,
        calculateVirtualImagePosition
            ⟨o.position.x + objectRadiusResolved o, o.position.y⟩ m =
          some v1 ∧
        calculateVirtualImagePosition
            ⟨o.position.x - objectRadiusResolved o / 2,
             o.position.y - objectRadiusResolved o⟩ m = some v2 ∧
        calculateVirtualImagePosition
            ⟨o.position.x - objectRadiusResolved o / 2,
             o.position.y + objectRadiusResolved o⟩ m = some v3 ∧
        calculateVirtualObject o m =
          some ⟨"virtual-" ++ o.id, .triangle, [v1, v2, v3], o.id⟩) := by
  constructor
  · intro hshape
    refine ⟨_, calcVIP_eq h, ?_⟩
    simp only [calculateVirtualObject, objectVertices, objectShapeResolved,
      hshape, Option.getD_none, reflectVertices, calcVIP_eq h]
  · intro hshape
    refine ⟨_, _, _, calcVIP_eq h, calcVIP_eq h, calcVIP_eq h, ?_⟩
    simp only [calculateVirtualObject, objectVertices, objectShapeResolved,
      hshape, Option.getD_some, reflectVertices, calcVIP_eq h]

/-- Witness for the amended C10: a shapeless (point) object at (1,1)
against the mirror from (0,0) to (0,2). -/
theorem claim_C10_witness :
    ∃ rp, calculateVirtualImagePosition
        (⟨"o", ⟨1, 1⟩, none, none⟩ : ObjectElement).position
        ⟨"m", ⟨0, 0⟩, ⟨0, 2⟩⟩ = some rp ∧
      calculateVirtualObject ⟨"o", ⟨1, 1⟩, none, none⟩
          ⟨"m", ⟨0, 0⟩, ⟨0, 2⟩⟩ =
        some ⟨"virtual-" ++ "o", .point, [rp], "o"⟩ :=
  (claim_C10_defaults ⟨"o", ⟨1, 1⟩, none, none⟩ ⟨"m", ⟨0, 0⟩, ⟨0, 2⟩⟩
    (by decide)).1 rfl
